import Mathlib

/-!
# Verification of the shipper bundling engine

Shallow embedding of the Bundler/Ticketer core of `tozh/shipper`
(`src/common/message/message.go`, `src/common/bundler/ticket.go`) and
proofs about it.

The repository contains two Bundler variants:
* the *Item-interface variant* (`message.go` lines 17–215): items carry a
  `Size()` method, ordered dispatch goes through the external `Ticket`
  type of `ticket.go`;
* the *(item, size)-pair variant* (`message.go` lines 216–474): items come
  with an explicit size, and the ticketing state (`active`, `next`,
  `nextHandled`, `mutex4t`, `cond4t`) is inlined in the `Bundler` struct.

Go `int`/`uint64` are modelled by `Int` (for sizes, thresholds, limits)
and `Nat` (for tickets and lengths; ticket counters increment by one per
seal, so 64-bit wraparound is unreachable and is not modelled).
-/

namespace Shipper

/-! ## Ticketer transition system

Embeds the inlined ticketer of the pair variant (`message.go`
`acquire`/`release`/`waitAll`, lines 406–440) — `Ticket.Acquire` and
`Ticket.WaitAll` of `ticket.go` are textually identical.  Operations run
under `mutex4t`; the interleaving of complete critical sections is a
sequence of events.  A blocked operation (a `cond4t.Wait` loop whose
predicate is false, or a panicking call) simply does not produce an
event, so admissible traces are exactly those where every guard held. -/

/-- State of the ticketer: the `active` set (Go `map[uint64]struct{}`,
modelled as a duplicate-free list), the `next` and `nextHandled`
counters, and the `HandlerLimit` field (a Go `int`). -/
structure TState where
  active : List Nat
  next : Nat
  nextHandled : Nat
  limit : Int
  deriving Repr, DecidableEq

/-- Events of the ticketer: `sealed` is `b.next++` inside `flushLocked`
(`Ticket.Next`), `acquire t` is a completed `b.acquire(t)` call, and
`release t` is a completed `b.release(t)` call, which in the dispatch
task runs only after `b.handler(bundle)` has returned. -/
inductive TEv where
  | sealed : TEv
  | acquire : Nat → TEv
  | release : Nat → TEv
  deriving Repr, DecidableEq

/-- Initial ticketer state: empty `active` map, both counters zero
(`NewBundler` / `NewTicketer`). -/
def tInit (limit : Int) : TState :=
  { active := [], next := 0, nextHandled := 0, limit := limit }

/-- One ticketer event.  Guards transcribe the source:
`acquire` panics when `ticket < nextHandled` and otherwise waits until
`ticket == nextHandled && len(active) < HandlerLimit`, then inserts the
ticket and increments `nextHandled`; `release` panics unless the ticket
is in `active`, then deletes it; `sealed` issues `next` and increments it.
The `acquire` event additionally requires `t < next`: in the program an
acquire is performed only by a dispatch task whose ticket was issued by
`b.next++` at seal time, so only issued tickets can be acquired.
`none` means the event cannot complete from this state. -/
def tStep (s : TState) (e : TEv) : Option TState :=
  match e with
  | .sealed => some { s with next := s.next + 1 }
  | .acquire t =>
      if t = s.nextHandled ∧ (s.active.length : Int) < s.limit ∧ t < s.next then
        some { s with active := t :: s.active, nextHandled := s.nextHandled + 1 }
      else
        none
  | .release t =>
      if t ∈ s.active then
        some { s with active := s.active.erase t }
      else
        none

/-- Run a list of events from a state; `some s'` means every event's
guard held along the way. -/
def tRun (s : TState) : List TEv → Option TState
  | [] => some s
  | e :: es => match tStep s e with
    | some s' => tRun s' es
    | none => none

/-- The Go `min` helper of `message.go` (lines 444–452) / `ticket.go`:
fold over the `active` set starting from `math.MaxUint64`. -/
def goMin (l : List Nat) : Nat :=
  l.foldl (fun m n => if n < m then n else m) (2 ^ 64 - 1)

/-- The termination predicate of `waitAll(n)` (`message.go` line 437):
`nextHandled >= n && n <= min(active)`. -/
def waitAllPred (s : TState) (n : Nat) : Prop :=
  n ≤ s.nextHandled ∧ n ≤ goMin s.active

instance (s : TState) (n : Nat) : Decidable (waitAllPred s n) := by
  unfold waitAllPred; infer_instance

/-- The tickets acquired along a trace, in order. -/
def acquires : List TEv → List Nat
  | [] => []
  | .acquire t :: es => t :: acquires es
  | _ :: es => acquires es

/-! Helper lemmas about `goMin` and runs. -/

theorem goMin_foldl_le {l : List Nat} {init n : Nat} :
    n ≤ l.foldl (fun m x => if x < m then x else m) init ↔
      n ≤ init ∧ ∀ x ∈ l, n ≤ x := by
  induction l generalizing init with
  | nil => simp
  | cons a l ih =>
      simp only [List.foldl_cons, ih, List.mem_cons]
      constructor
      · rintro ⟨h1, h2⟩
        by_cases hc : a < init
        · simp only [if_pos hc] at h1
          exact ⟨le_trans h1 (le_of_lt hc), fun x hx => hx.elim (fun hx => hx ▸ h1) (h2 x)⟩
        · simp only [if_neg hc] at h1
          exact ⟨h1, fun x hx => hx.elim (fun hx => hx ▸ le_trans h1 (le_of_not_lt hc)) (h2 x)⟩
      · rintro ⟨h1, h2⟩
        constructor
        · by_cases hc : a < init
          · simpa [if_pos hc] using h2 a (Or.inl rfl)
          · simpa [if_neg hc] using h1
        · exact fun x hx => h2 x (Or.inr hx)

theorem goMin_spec {l : List Nat} {n : Nat} :
    n ≤ goMin l ↔ n ≤ 2 ^ 64 - 1 ∧ ∀ x ∈ l, n ≤ x :=
  goMin_foldl_le

/-- The inductive invariant of the ticketer, including the trace-level
fact that every ticket below `nextHandled` is either still active or has
been released. -/
def tInv (evs : List TEv) (s : TState) : Prop :=
  s.nextHandled ≤ s.next ∧
  (∀ t ∈ s.active, t < s.nextHandled) ∧
  s.active.Nodup ∧
  (0 ≤ s.limit → (s.active.length : Int) ≤ s.limit) ∧
  acquires evs = List.range s.nextHandled ∧
  (∀ t < s.nextHandled, t ∈ s.active ∨ TEv.release t ∈ evs)

theorem tRun_append {s : TState} {evs : List TEv} {e : TEv} :
    tRun s (evs ++ [e]) =
      match tRun s evs with
      | some s' => tStep s' e
      | none => none := by
  induction evs generalizing s with
  | nil =>
      simp only [List.nil_append, tRun]
      cases tStep s e <;> rfl
  | cons a l ih =>
      simp only [List.cons_append, tRun]
      cases tStep s a with
      | none => rfl
      | some s' => exact ih

theorem acquires_append (l1 l2 : List TEv) :
    acquires (l1 ++ l2) = acquires l1 ++ acquires l2 := by
  induction l1 with
  | nil => rfl
  | cons a l ih => cases a <;> simp [acquires, ih]

theorem tInv_init (limit : Int) : tInv [] (tInit limit) := by
  refine ⟨Nat.le_refl _, ?_, ?_, ?_, ?_, ?_⟩ <;> simp [tInit, acquires]

theorem tInv_step {evs : List TEv} {s s' : TState} {e : TEv}
    (hinv : tInv evs s) (hstep : tStep s e = some s') :
    tInv (evs ++ [e]) s' := by
  obtain ⟨h1, h2, h3, h4, h5, h6⟩ := hinv
  cases e with
  | sealed =>
      simp only [tStep, Option.some.injEq] at hstep
      subst hstep
      refine ⟨Nat.le_succ_of_le h1, h2, h3, h4, ?_, ?_⟩
      · rw [acquires_append, h5]; simp [acquires]
      · intro t ht
        rcases h6 t ht with h | h
        · exact Or.inl h
        · exact Or.inr (List.mem_append_left _ h)
  | acquire t =>
      simp only [tStep] at hstep
      split at hstep
      · rename_i hg
        obtain ⟨hg1, hg2, hg3⟩ := hg
        simp only [Option.some.injEq] at hstep
        subst hstep
        refine ⟨?_, ?_, ?_, ?_, ?_, ?_⟩
        · simpa [hg1] using hg3
        · intro u hu
          rcases List.mem_cons.mp hu with h | h
          · subst h; exact hg1 ▸ Nat.lt_succ_self _
          · exact Nat.lt_succ_of_lt (h2 u h)
        · refine List.nodup_cons.mpr ⟨?_, h3⟩
          intro hmem
          exact absurd (h2 t hmem) (by simp [hg1])
        · intro hl
          simpa using Int.add_one_le_of_lt hg2
        · rw [acquires_append, h5, List.range_succ]
          simp [acquires, hg1]
        · intro u hu
          rcases Nat.lt_succ_iff_lt_or_eq.mp hu with h | h
          · rcases h6 u h with hmem | hrel
            · exact Or.inl (List.mem_cons_of_mem _ hmem)
            · exact Or.inr (List.mem_append_left _ hrel)
          · subst h
            exact Or.inl (by rw [hg1] at *; exact List.mem_cons_self _ _)
      · exact absurd hstep (by simp)
  | release t =>
      simp only [tStep] at hstep
      split at hstep
      · rename_i hg
        simp only [Option.some.injEq] at hstep
        subst hstep
        refine ⟨h1, ?_, h3.erase t, ?_, ?_, ?_⟩
        · intro u hu
          exact h2 u (List.mem_of_mem_erase hu)
        · intro hl
          exact le_trans (by exact_mod_cast List.length_erase_le t s.active) (h4 hl)
        · rw [acquires_append, h5]; simp [acquires]
        · intro u hu
          rcases h6 u hu with hmem | hrel
          · by_cases he : u = t
            · subst he
              exact Or.inr (List.mem_append_right _ (List.mem_singleton.mpr rfl))
            · exact Or.inl ((List.mem_erase_of_ne he).mpr hmem)
          · exact Or.inr (List.mem_append_left _ hrel)
      · exact absurd hstep (by simp)

theorem tInv_run {limit : Int} {evs : List TEv} {s : TState}
    (h : tRun (tInit limit) evs = some s) : tInv evs s := by
  induction evs using List.reverseRecOn generalizing s with
  | nil =>
      simp only [tRun, Option.some.injEq] at h
      exact h ▸ tInv_init limit
  | append_singleton l e ih =>
      rw [tRun_append] at h
      cases hrun : tRun (tInit limit) l with
      | none => rw [hrun] at h; exact absurd h (by simp)
      | some s0 =>
          rw [hrun] at h
          exact tInv_step (ih hrun) h

theorem tRun_limit {limit : Int} {evs : List TEv} {s : TState}
    (h : tRun (tInit limit) evs = some s) : s.limit = limit := by
  suffices H : ∀ s0 : TState, ∀ evs, ∀ s, tRun s0 evs = some s → s.limit = s0.limit by
    exact H (tInit limit) evs s h
  intro s0 evs
  induction evs generalizing s0 with
  | nil =>
      intro s h
      simp only [tRun, Option.some.injEq] at h
      rw [← h]
  | cons e es ih =>
      intro s h
      simp only [tRun] at h
      cases he : tStep s0 e with
      | none => rw [he] at h; exact absurd h (by simp)
      | some s1 =>
          rw [he] at h
          have h1 : s1.limit = s0.limit := by
            cases e with
            | sealed => simp only [tStep, Option.some.injEq] at he; rw [← he]
            | acquire t =>
                simp only [tStep] at he
                split at he
                · simp only [Option.some.injEq] at he; rw [← he]
                · exact absurd he (by simp)
            | release t =>
                simp only [tStep] at he
                split at he
                · simp only [Option.some.injEq] at he; rw [← he]
                · exact absurd he (by simp)
          rw [← h1]; exact ih s1 s h

/-- Claim C1: after `Flush()` returns, every bundle sealed at or before the
flush call has had its handler invocation return.  In the model: `waitAll(n)`
(whose loop condition is `nextHandled >= n && n <= min(active)`, with the Go
`min` returning `MaxUint64` on the empty set, i.e. plus infinity for any
`uint64` argument) can only return in a state where `nextHandled ≥ n` and
every active ticket is `≥ n`; and in any admissible trace reaching such a
state, every ticket `t < n` — in particular every ticket issued before
`Flush` read `n = b.next` — has a `release t` event in the trace, which in
the dispatch task happens only after `b.handler(bundle)` has returned. -/
theorem C1_flush_waits_for_sealed_handlers {limit : Int} {evs : List TEv}
    {s : TState} {n : Nat}
    (h : tRun (tInit limit) evs = some s) (hn : n ≤ 2 ^ 64 - 1) :
    (waitAllPred s n ↔ n ≤ s.nextHandled ∧ ∀ t ∈ s.active, n ≤ t) ∧
    (waitAllPred s n → ∀ t < n, TEv.release t ∈ evs) := by
  have hinv := tInv_run h
  constructor
  · unfold waitAllPred
    rw [goMin_spec]
    exact ⟨fun ⟨a, _, b⟩ => ⟨a, b⟩, fun ⟨a, b⟩ => ⟨a, hn, b⟩⟩
  · rintro ⟨hp1, hp2⟩ t ht
    rcases hinv.2.2.2.2.2 t (lt_of_lt_of_le ht hp1) with hmem | hrel
    · exact absurd ((goMin_spec.mp hp2).2 t hmem) (by omega)
    · exact hrel

/-- Witness for C1 on the concrete trace seal–acquire–release of ticket 0
with `HandlerLimit = 1`, checked with `n = 1`. -/
theorem C1_flush_waits_for_sealed_handlers_witness :
    tRun (tInit 1) [TEv.sealed, TEv.acquire 0, TEv.release 0] =
      some ⟨[], 1, 1, 1⟩ ∧
    (1 : Nat) ≤ 2 ^ 64 - 1 ∧
    (waitAllPred ⟨[], 1, 1, 1⟩ 1 →
      ∀ t < 1, TEv.release t ∈ [TEv.sealed, TEv.acquire 0, TEv.release 0]) :=
  ⟨by decide, by norm_num,
    (@C1_flush_waits_for_sealed_handlers 1
      [TEv.sealed, TEv.acquire 0, TEv.release 0] ⟨[], 1, 1, 1⟩ 1
      (by decide) (by norm_num)).2⟩

/-- Claim C3 (amended): in every reachable ticketer state, `nextHandled ≤
next`, every active ticket is `< nextHandled`, and — provided `HandlerLimit ≥
0` — `|active| ≤ HandlerLimit`; `acquire(t)` admits `t` only when `t =
nextHandled` with `|active| < HandlerLimit`, and the tickets that become
active along any trace are exactly `0, 1, 2, …` in strictly increasing
order, each exactly once (`acquires evs = List.range s.nextHandled`). -/
theorem C3_ticketer_invariants {limit : Int} {evs : List TEv} {s : TState}
    (h : tRun (tInit limit) evs = some s) :
    s.nextHandled ≤ s.next ∧
    (∀ t ∈ s.active, t < s.nextHandled) ∧
    (0 ≤ limit → (s.active.length : Int) ≤ limit) ∧
    (∀ t s', tStep s (TEv.acquire t) = some s' →
      t = s.nextHandled ∧ (s.active.length : Int) < limit) ∧
    acquires evs = List.range s.nextHandled := by
  have hinv := tInv_run h
  have hl := tRun_limit h
  refine ⟨hinv.1, hinv.2.1, hl ▸ hinv.2.2.2.1, ?_, hinv.2.2.2.2.1⟩
  intro t s' hstep
  simp only [tStep] at hstep
  split at hstep
  · rename_i hg
    exact ⟨hg.1, hl ▸ hg.2.1⟩
  · exact absurd hstep (by simp)

/-- Witness for C3 on the trace seal–seal–acquire-0 with `HandlerLimit = 2`. -/
theorem C3_ticketer_invariants_witness :
    tRun (tInit 2) [TEv.sealed, TEv.sealed, TEv.acquire 0] =
      some ⟨[0], 2, 1, 2⟩ ∧
    acquires [TEv.sealed, TEv.sealed, TEv.acquire 0] = List.range 1 :=
  ⟨by decide,
    (@C3_ticketer_invariants 2 [TEv.sealed, TEv.sealed, TEv.acquire 0]
      ⟨[0], 2, 1, 2⟩ (by decide)).2.2.2.2⟩

/-- Counterexample to C3 as stated: `HandlerLimit` is a plain Go `int`, so a
ticketer whose limit field is `-1` is reachable (it is the initial state for
that limit), and there `|active| = 0 > -1 = HandlerLimit`, refuting the
unconditional invariant `|active| ≤ HandlerLimit`. -/
theorem C3_counterexample :
    tRun (tInit (-1)) [] = some (tInit (-1)) ∧
    (tInit (-1)).limit < ((tInit (-1)).active.length : Int) := by
  constructor
  · rfl
  · decide

/-! ## Sequential bundler semantics

The accumulator logic of both variants, at the granularity of
mutex-protected critical sections.  Each `add`/`TryAdd` runs its whole
body under `b.mutex`, so a sequence of admissions and flushes is a fold
of pure state transformers.  Timer arming/cancelling (modelled in the
next section) and the dispatch goroutines (modelled by the ticketer
system above) do not touch `bundle`/`size`, so they are not part of this
state.  Handler completion — which releases buffer credits — is modelled
as happening during `Flush` (which waits for all outstanding handlers),
the deterministic sequential schedule. -/

/-- The threshold/limit fields of either `Bundler` struct (Go `int`s). -/
structure Cfg where
  countThreshold : Int
  sizeThreshold : Int
  bundleSizeLimit : Int
  bufferSizeLimit : Int
  deriving Repr, DecidableEq

/-- Accumulator state: the current `bundle`/`items` with its running
`size`, the bundles sealed so far in seal order (with their sizes, as
handed to dispatch tasks), and the buffer credits still available in the
weighted semaphore. -/
structure BState (α : Type) where
  bundle : List α
  size : Int
  sealedB : List (List α × Int)
  avail : Int
  deriving Repr, DecidableEq

/-- Initial accumulator state of `NewBundler`: empty bundle, size 0, and
a semaphore holding `BufferSizeLimit` credits. -/
def bInit (α : Type) (cfg : Cfg) : BState α :=
  { bundle := [], size := 0, sealedB := [], avail := cfg.bufferSizeLimit }

/-- `flushLocked`, snapshot-and-reset part (`message.go` lines 93–100 and
386–395): if the bundle is empty do nothing, otherwise hand the snapshot
to a dispatch task and reset `bundle` and `size`. -/
def flushLockedS {α : Type} (st : BState α) : BState α :=
  if st.bundle.length = 0 then st
  else { st with bundle := [], size := 0,
                 sealedB := st.sealedB ++ [(st.bundle, st.size)] }

/-- Steps 1–2 of `add` (`message.go` lines 128–135 and 335–342): pre-flush
when `BundleSizeLimit > 0 && size+sz > BundleSizeLimit`, then append the
item and add its size. -/
def preFlushAppend {α : Type} (cfg : Cfg) (st : BState α) (x : α) (sz : Int) :
    BState α :=
  let st1 := if 0 < cfg.bundleSizeLimit ∧ cfg.bundleSizeLimit < st.size + sz
    then flushLockedS st else st
  { st1 with bundle := st1.bundle ++ [x], size := st1.size + sz }

/-- Count trigger of the Item variant (`message.go` line 158):
`len(b.items) >= b.CountThreshold`. -/
def countCheckItem {α : Type} (cfg : Cfg) (st : BState α) : BState α :=
  if cfg.countThreshold ≤ (st.bundle.length : Int) then flushLockedS st else st

/-- Count trigger of the pair variant (`message.go` line 364):
`len(b.bundle) == b.CountThreshold` — equality, not `>=`. -/
def countCheckPair {α : Type} (cfg : Cfg) (st : BState α) : BState α :=
  if (st.bundle.length : Int) = cfg.countThreshold then flushLockedS st else st

/-- Size trigger of both variants (`message.go` lines 162 and 368):
`b.size >= b.SizeThreshold`. -/
def sizeCheck {α : Type} (cfg : Cfg) (st : BState α) : BState α :=
  if cfg.sizeThreshold ≤ st.size then flushLockedS st else st

/-- `add` of the Item variant (lines 124–165), timer arming aside. -/
def addLockedItem {α : Type} (cfg : Cfg) (st : BState α) (x : α) (sz : Int) :
    BState α :=
  sizeCheck cfg (countCheckItem cfg (preFlushAppend cfg st x sz))

/-- `add` of the pair variant (lines 331–371), timer arming aside. -/
def addLockedPair {α : Type} (cfg : Cfg) (st : BState α) (x : α) (sz : Int) :
    BState α :=
  sizeCheck cfg (countCheckPair cfg (preFlushAppend cfg st x sz))

/-- Outcome of a non-blocking admission. -/
inductive Res where
  | ok : Res
  | oversize : Res
  | overflow : Res
  deriving Repr, DecidableEq

/-- `TryAdd` of the Item variant (`message.go` lines 168–178): `ErrOversize`
when `BundleSizeLimit > 0 && item.Size() > BundleSizeLimit`, checked before
touching the semaphore; then `ErrOverflow` when `TryAcquire(size)` fails
(`TryAcquire(n)` succeeds iff `n` credits are free, consuming them);
otherwise `b.add(item)`. -/
def tryAddItem {α : Type} (cfg : Cfg) (st : BState α) (x : α) (sz : Int) :
    Res × BState α :=
  if 0 < cfg.bundleSizeLimit ∧ cfg.bundleSizeLimit < sz then (.oversize, st)
  else if sz ≤ st.avail then
    (.ok, addLockedItem cfg { st with avail := st.avail - sz } x sz)
  else (.overflow, st)

/-- Non-blocking `Add` of the pair variant (`message.go` lines 288–298):
same admission logic, then `b.add(item, size)`. -/
def tryAddPair {α : Type} (cfg : Cfg) (st : BState α) (x : α) (sz : Int) :
    Res × BState α :=
  if 0 < cfg.bundleSizeLimit ∧ cfg.bundleSizeLimit < sz then (.oversize, st)
  else if sz ≤ st.avail then
    (.ok, addLockedPair cfg { st with avail := st.avail - sz } x sz)
  else (.overflow, st)

/-- `Flush` (`message.go` lines 112–122 and 319–329): seal under the
mutex, then wait until every handler for a previously sealed bundle has
returned — at which point every acquired credit has been released, so
the semaphore is back to `BufferSizeLimit`. -/
def flushS {α : Type} (cfg : Cfg) (st : BState α) : BState α :=
  let st1 := flushLockedS st
  { st1 with avail := cfg.bufferSizeLimit }

/-- An operation of a sequential client: a non-blocking admission of an
item with the given size, or a `Flush`. -/
inductive SOp (α : Type) where
  | add : α → Int → SOp α
  | flush : SOp α
  deriving Repr, DecidableEq

/-- Run the Item variant's locked accumulator and admission logic over a
list of operations, collecting the admission results in order.  This
covers only the `bundle`/`size`/semaphore state used by the size bounds
of C2; the Item variant's full observable behaviour — in particular the
nil-`ticket` panic at every seal and flush — is modelled by `runItemT`
below. -/
def runItem {α : Type} (cfg : Cfg) : BState α → List (SOp α) →
    BState α × List Res
  | st, [] => (st, [])
  | st, SOp.add x sz :: ops =>
      let p := tryAddItem cfg st x sz
      let q := runItem cfg p.2 ops
      (q.1, p.1 :: q.2)
  | st, SOp.flush :: ops => runItem cfg (flushS cfg st) ops

/-- Run the pair variant over a list of operations. -/
def runPair {α : Type} (cfg : Cfg) : BState α → List (SOp α) →
    BState α × List Res
  | st, [] => (st, [])
  | st, SOp.add x sz :: ops =>
      let p := tryAddPair cfg st x sz
      let q := runPair cfg p.2 ops
      (q.1, p.1 :: q.2)
  | st, SOp.flush :: ops => runPair cfg (flushS cfg st) ops

/-- The largest size among the admissions of an operation list, floored
at 0 (with `BundleSizeLimit > 0` the floor is absorbed by the `max`). -/
def largestSize {α : Type} : List (SOp α) → Int
  | [] => 0
  | SOp.add _ sz :: ops => max sz (largestSize ops)
  | SOp.flush :: ops => largestSize ops

/-! Size invariant: nothing sealed ever exceeds `M` when the bundle-size
limit and every admitted size are at most `M`. -/

/-- Size invariant carried through a run: the accumulator size is at most
`M`, an empty bundle has size 0, and every sealed bundle has size at most
`M`. -/
def szInv {α : Type} (M : Int) (st : BState α) : Prop :=
  st.size ≤ M ∧ (st.bundle.length = 0 → st.size = 0) ∧
  ∀ p ∈ st.sealedB, p.2 ≤ M

theorem szInv_flushLockedS {α : Type} {M : Int} {st : BState α}
    (hM : 0 ≤ M) (h : szInv M st) : szInv M (flushLockedS st) := by
  obtain ⟨h1, h2, h3⟩ := h
  unfold flushLockedS
  split_ifs with hb
  · exact ⟨h1, h2, h3⟩
  · refine ⟨hM, fun _ => rfl, ?_⟩
    intro p hp
    rcases List.mem_append.mp hp with hp | hp
    · exact h3 p hp
    · rw [List.mem_singleton.mp hp]
      exact h1

theorem flushLockedS_size {α : Type} {st : BState α}
    (h2 : st.bundle.length = 0 → st.size = 0) : (flushLockedS st).size = 0 := by
  unfold flushLockedS
  split_ifs with hb
  · exact h2 hb
  · rfl

theorem szInv_check {α : Type} {M : Int} {cfg : Cfg} {st : BState α}
    (hM : 0 ≤ M) (h : szInv M st) :
    szInv M (countCheckItem cfg st) ∧ szInv M (countCheckPair cfg st) ∧
    szInv M (sizeCheck cfg st) := by
  unfold countCheckItem countCheckPair sizeCheck
  refine ⟨?_, ?_, ?_⟩ <;> split_ifs <;>
    first | exact szInv_flushLockedS hM h | exact h

theorem szInv_addLocked {α : Type} {M : Int} {cfg : Cfg} {st : BState α}
    {x : α} {sz : Int}
    (hL : 0 < cfg.bundleSizeLimit) (hlim : cfg.bundleSizeLimit ≤ M)
    (hsz : sz ≤ M) (h : szInv M st) :
    szInv M (addLockedItem cfg st x sz) ∧ szInv M (addLockedPair cfg st x sz) := by
  have hM : 0 ≤ M := le_trans (le_of_lt hL) hlim
  have hpre : szInv M (preFlushAppend cfg st x sz) := by
    obtain ⟨h1, h2, h3⟩ := h
    unfold preFlushAppend
    split_ifs with hc
    · have h0 := szInv_flushLockedS hM ⟨h1, h2, h3⟩
      have hsz0 : (flushLockedS st).size = 0 := flushLockedS_size h2
      refine ⟨?_, ?_, h0.2.2⟩
      · show (flushLockedS st).size + sz ≤ M
        rw [hsz0]; omega
      · intro habs; simp at habs
    · have hle : st.size + sz ≤ cfg.bundleSizeLimit := by
        by_contra hcon
        exact hc ⟨hL, lt_of_not_le hcon⟩
      refine ⟨le_trans hle hlim, ?_, h3⟩
      intro habs; simp at habs
  exact ⟨(szInv_check hM (szInv_check hM hpre).1).2.2,
         (szInv_check hM (szInv_check hM hpre).2.1).2.2⟩

theorem szInv_tryAdd {α : Type} {M : Int} {cfg : Cfg} {st : BState α}
    {x : α} {sz : Int}
    (hL : 0 < cfg.bundleSizeLimit) (hlim : cfg.bundleSizeLimit ≤ M)
    (hsz : sz ≤ M) (h : szInv M st) :
    szInv M (tryAddItem cfg st x sz).2 ∧ szInv M (tryAddPair cfg st x sz).2 := by
  unfold tryAddItem tryAddPair
  split_ifs with hc1 hc2
  · exact ⟨h, h⟩
  · exact szInv_addLocked hL hlim hsz h
  · exact ⟨h, h⟩

theorem szInv_flushS {α : Type} {M : Int} {cfg : Cfg} {st : BState α}
    (hM : 0 ≤ M) (h : szInv M st) : szInv M (flushS cfg st) :=
  szInv_flushLockedS hM h

theorem szInv_runs {α : Type} {M : Int} {cfg : Cfg}
    (hL : 0 < cfg.bundleSizeLimit) (hlim : cfg.bundleSizeLimit ≤ M)
    (ops : List (SOp α)) (hsz : ∀ x sz, SOp.add x sz ∈ ops → sz ≤ M) :
    ∀ st : BState α, szInv M st →
      szInv M (runItem cfg st ops).1 ∧ szInv M (runPair cfg st ops).1 := by
  have hM : 0 ≤ M := le_trans (le_of_lt hL) hlim
  induction ops with
  | nil => exact fun st h => ⟨h, h⟩
  | cons op ops ih =>
      have hsz' : ∀ x sz, SOp.add x sz ∈ ops → sz ≤ M :=
        fun x sz hm => hsz x sz (List.mem_cons_of_mem _ hm)
      intro st h
      cases op with
      | add x sz =>
          have hxsz : sz ≤ M := hsz x sz (List.mem_cons_self _ _)
          have ht := @szInv_tryAdd α M cfg st x sz hL hlim hxsz h
          exact ⟨(ih hsz' _ ht.1).1, (ih hsz' _ ht.2).2⟩
      | flush =>
          exact ⟨(ih hsz' _ (szInv_flushS hM h)).1,
                 (ih hsz' _ (szInv_flushS hM h)).2⟩

theorem szInv_bInit {α : Type} {M : Int} (cfg : Cfg) (hM : 0 ≤ M) :
    szInv M (bInit α cfg) := by
  refine ⟨hM, fun _ => rfl, ?_⟩
  intro p hp
  simp [bInit] at hp

theorem le_largestSize {α : Type} {ops : List (SOp α)} {x : α} {sz : Int}
    (h : SOp.add x sz ∈ ops) : sz ≤ largestSize ops := by
  induction ops with
  | nil => cases h
  | cons op ops ih =>
      rcases List.mem_cons.mp h with h1 | h1
      · rw [← h1]
        exact le_max_left _ _
      · cases op with
        | add y sz' => exact le_trans (ih h1) (le_max_right _ _)
        | flush => exact ih h1

/-- A direct run of the internal `add` (the claim's `add_locked`),
bypassing the public oversize/semaphore admission — Item variant. -/
def runAddLockedItem {α : Type} (cfg : Cfg) : BState α → List (α × Int) →
    BState α
  | st, [] => st
  | st, (x, sz) :: its => runAddLockedItem cfg (addLockedItem cfg st x sz) its

/-- A direct run of the internal `add` — pair variant. -/
def runAddLockedPair {α : Type} (cfg : Cfg) : BState α → List (α × Int) →
    BState α
  | st, [] => st
  | st, (x, sz) :: its => runAddLockedPair cfg (addLockedPair cfg st x sz) its

/-- The largest size among a list of (item, size) pairs, floored at 0. -/
def largestPairSize {α : Type} : List (α × Int) → Int
  | [] => 0
  | (_, sz) :: its => max sz (largestPairSize its)

theorem le_largestPairSize {α : Type} {its : List (α × Int)}
    {q : α × Int} (h : q ∈ its) : q.2 ≤ largestPairSize its := by
  induction its with
  | nil => cases h
  | cons p its ih =>
      rcases List.mem_cons.mp h with h1 | h1
      · rw [h1]
        exact le_max_left _ _
      · exact le_trans (ih h1) (le_max_right _ _)

theorem szInv_runAddLocked {α : Type} {M : Int} {cfg : Cfg}
    (hL : 0 < cfg.bundleSizeLimit) (hlim : cfg.bundleSizeLimit ≤ M)
    (its : List (α × Int)) (hsz : ∀ q ∈ its, q.2 ≤ M) :
    ∀ st : BState α, szInv M st →
      szInv M (runAddLockedItem cfg st its) ∧
      szInv M (runAddLockedPair cfg st its) := by
  induction its with
  | nil => exact fun st h => ⟨h, h⟩
  | cons p its ih =>
      have hsz' : ∀ q ∈ its, q.2 ≤ M :=
        fun q hq => hsz q (List.mem_cons_of_mem _ hq)
      intro st h
      have hp : p.2 ≤ M := hsz p (List.mem_cons_self _ _)
      have ha := @szInv_addLocked α M cfg st p.1 p.2 hL hlim hp h
      exact ⟨(ih hsz' _ ha.1).1, (ih hsz' _ ha.2).2⟩

/-- Claim C2: with `BundleSizeLimit > 0`, if every admitted item's size is
at most `BundleSizeLimit` then every sealed bundle handed to the handler
has cumulative size at most `BundleSizeLimit`; and for a run of the
internal `add` with no per-item precondition (through the public
admission an oversize item is rejected before reaching `add`), every
sealed bundle's size is at most
`max(BundleSizeLimit, largest single admitted size)`.  Both Bundler
variants, over any operation sequence. -/
theorem C2_sealed_bundle_size_bound {α : Type} (cfg : Cfg)
    (ops : List (SOp α)) (its : List (α × Int))
    (hL : 0 < cfg.bundleSizeLimit) :
    ((∀ x sz, SOp.add x sz ∈ ops → sz ≤ cfg.bundleSizeLimit) →
      (∀ p ∈ (runItem cfg (bInit α cfg) ops).1.sealedB,
        p.2 ≤ cfg.bundleSizeLimit) ∧
      (∀ p ∈ (runPair cfg (bInit α cfg) ops).1.sealedB,
        p.2 ≤ cfg.bundleSizeLimit)) ∧
    ((∀ p ∈ (runItem cfg (bInit α cfg) ops).1.sealedB,
        p.2 ≤ max cfg.bundleSizeLimit (largestSize ops)) ∧
     (∀ p ∈ (runPair cfg (bInit α cfg) ops).1.sealedB,
        p.2 ≤ max cfg.bundleSizeLimit (largestSize ops))) ∧
    ((∀ p ∈ (runAddLockedItem cfg (bInit α cfg) its).sealedB,
        p.2 ≤ max cfg.bundleSizeLimit (largestPairSize its)) ∧
     (∀ p ∈ (runAddLockedPair cfg (bInit α cfg) its).sealedB,
        p.2 ≤ max cfg.bundleSizeLimit (largestPairSize its))) := by
  refine ⟨?_, ?_, ?_⟩
  · intro hsz
    have h := szInv_runs hL (le_refl _) ops hsz (bInit α cfg)
      (szInv_bInit cfg (le_of_lt hL))
    exact ⟨h.1.2.2, h.2.2.2⟩
  · have hlim : cfg.bundleSizeLimit ≤ max cfg.bundleSizeLimit (largestSize ops) :=
      le_max_left _ _
    have hsz : ∀ x sz, SOp.add x sz ∈ ops →
        sz ≤ max cfg.bundleSizeLimit (largestSize ops) :=
      fun x sz hm => le_trans (le_largestSize hm) (le_max_right _ _)
    have h := szInv_runs hL hlim ops hsz (bInit α cfg)
      (szInv_bInit cfg (le_trans (le_of_lt hL) hlim))
    exact ⟨h.1.2.2, h.2.2.2⟩
  · have hlim : cfg.bundleSizeLimit ≤
        max cfg.bundleSizeLimit (largestPairSize its) := le_max_left _ _
    have hsz : ∀ q ∈ its, q.2 ≤ max cfg.bundleSizeLimit (largestPairSize its) :=
      fun q hq => le_trans (le_largestPairSize hq) (le_max_right _ _)
    have h := szInv_runAddLocked hL hlim its hsz (bInit α cfg)
      (szInv_bInit cfg (le_trans (le_of_lt hL) hlim))
    exact ⟨h.1.2.2, h.2.2.2⟩

/-- Spec scenario 4 configuration: `BundleSizeLimit = 100`,
`CountThreshold = 100`, `SizeThreshold = 10000`. -/
def cfgSplit : Cfg :=
  { countThreshold := 100, sizeThreshold := 10000,
    bundleSizeLimit := 100, bufferSizeLimit := 1000000000 }

/-- Spec scenario 4 workload: three items of size 60 and a final flush. -/
def opsSplit : List (SOp Nat) :=
  [SOp.add 0 60, SOp.add 1 60, SOp.add 2 60, SOp.flush]

/-- A direct `add_locked` workload containing an oversize item (size 200
against limit 100) followed by a fitting item, for the max-bound part. -/
def itsOversize : List (Nat × Int) := [(0, 200), (1, 60)]

/-- Witness for C2 on spec scenario 4: the three size-60 items are split
into three singleton bundles of size 60, each within the limit 100; and
the direct `add_locked` run with an admitted size-200 item seals a bundle
of size 200 ≤ max(100, 200). -/
theorem C2_sealed_bundle_size_bound_witness :
    (0 : Int) < cfgSplit.bundleSizeLimit ∧
    (runItem cfgSplit (bInit Nat cfgSplit) opsSplit).1.sealedB =
      [([0], 60), ([1], 60), ([2], 60)] ∧
    (runAddLockedItem cfgSplit (bInit Nat cfgSplit) itsOversize).sealedB =
      [([0], 200)] ∧
    (∀ p ∈ (runItem cfgSplit (bInit Nat cfgSplit) opsSplit).1.sealedB,
      p.2 ≤ cfgSplit.bundleSizeLimit) ∧
    (∀ p ∈ (runAddLockedItem cfgSplit (bInit Nat cfgSplit) itsOversize).sealedB,
      p.2 ≤ max cfgSplit.bundleSizeLimit (largestPairSize itsOversize)) := by
  refine ⟨by decide, by decide, by decide, ?_, ?_⟩
  · refine ((C2_sealed_bundle_size_bound cfgSplit opsSplit itsOversize
      (by decide)).1 ?_).1
    intro x sz h
    simp only [opsSplit, List.mem_cons, List.not_mem_nil, or_false] at h
    rcases h with h | h | h | h <;> simp_all <;> decide
  · exact (C2_sealed_bundle_size_bound cfgSplit opsSplit itsOversize
      (by decide)).2.2.1

/-- Default configuration of both `NewBundler`s (`message.go` lines 27–33
and 227–233). -/
def cfgDefault : Cfg :=
  { countThreshold := 10, sizeThreshold := 1000000,
    bundleSizeLimit := 10000000, bufferSizeLimit := 1000000000 }

/-- Spec scenario 5 configuration: `BundleSizeLimit = 100`, other
thresholds at their defaults. -/
def cfgOversize : Cfg :=
  { countThreshold := 10, sizeThreshold := 1000000,
    bundleSizeLimit := 100, bufferSizeLimit := 1000000000 }

/-- Claim C7: `TryAdd` returns `ErrOversize` iff
`BundleSizeLimit > 0 && item.Size() > BundleSizeLimit`, independently of
(and before touching) the semaphore; it returns `ErrOverflow` iff the item
is not oversize and the non-blocking `TryAcquire(size)` fails; on either
error the state — buffer credits and accumulator — is unchanged; and in
the spec's concrete scenario (`BundleSizeLimit = 100`), `try_add(size=200)`
returns `Oversize` and a subsequent `try_add(size=50)` succeeds. -/
theorem C7_tryadd_error_paths :
    (∀ (α : Type) (cfg : Cfg) (st : BState α) (x : α) (sz : Int),
      ((tryAddItem cfg st x sz).1 = Res.oversize ↔
        0 < cfg.bundleSizeLimit ∧ cfg.bundleSizeLimit < sz) ∧
      ((tryAddItem cfg st x sz).1 = Res.overflow ↔
        ¬(0 < cfg.bundleSizeLimit ∧ cfg.bundleSizeLimit < sz) ∧
        ¬ sz ≤ st.avail) ∧
      ((tryAddItem cfg st x sz).1 ≠ Res.ok →
        (tryAddItem cfg st x sz).2 = st)) ∧
    (tryAddItem cfgOversize (bInit Nat cfgOversize) 7 200).1 = Res.oversize ∧
    (tryAddItem cfgOversize (bInit Nat cfgOversize) 7 200).2 =
      bInit Nat cfgOversize ∧
    (tryAddItem cfgOversize
      (tryAddItem cfgOversize (bInit Nat cfgOversize) 7 200).2 8 50).1 =
      Res.ok := by
  refine ⟨?_, by decide, by decide, by decide⟩
  intro α cfg st x sz
  unfold tryAddItem
  split_ifs with h1 h2 <;>
    simp_all

/-- Witness for C7's frame condition at the concrete oversize rejection. -/
theorem C7_tryadd_error_paths_witness :
    (tryAddItem cfgOversize (bInit Nat cfgOversize) 7 200).1 ≠ Res.ok ∧
    (tryAddItem cfgOversize (bInit Nat cfgOversize) 7 200).2 =
      bInit Nat cfgOversize :=
  ⟨by decide,
    (C7_tryadd_error_paths.1 Nat cfgOversize (bInit Nat cfgOversize) 7 200).2.2
      (by decide)⟩

/-! ## The count trigger: `>=` in the Item variant, `==` in the pair
variant (claims C8 and C9). -/

/-- A configuration whose `CountThreshold` is `0`: the Item variant's
`>=` trigger fires on every admission, the pair variant's `==` trigger
never fires. -/
def cfgCountZero : Cfg :=
  { countThreshold := 0, sizeThreshold := 1000000,
    bundleSizeLimit := 10000000, bufferSizeLimit := 1000000000 }

/-- Counterexample to C8 as stated: in the pair variant (`message.go` line
364 reads `len(b.bundle) == b.CountThreshold`), with `CountThreshold = 0`
an admission leaves the bundle at length `1 ≥ 0 = CountThreshold`, yet no
seal happens — the item sits in the accumulator and nothing was handed to
a dispatch task. -/
theorem C8_counterexample :
    cfgCountZero.countThreshold ≤
      (((preFlushAppend cfgCountZero (bInit Nat cfgCountZero) 0 1).bundle.length :
        Int)) ∧
    (addLockedPair cfgCountZero (bInit Nat cfgCountZero) 0 1).sealedB = [] ∧
    (addLockedPair cfgCountZero (bInit Nat cfgCountZero) 0 1).bundle = [0] := by
  decide

theorem preFlushAppend_bundle_ne {α : Type} (cfg : Cfg) (st : BState α)
    (x : α) (sz : Int) : (preFlushAppend cfg st x sz).bundle.length ≠ 0 := by
  unfold preFlushAppend
  split_ifs <;> simp

/-- Claim C8 (amended): the Item variant's `add` (line 158) seals on the
greater-or-equal comparison — whenever, after appending, `len(bundle) ≥
CountThreshold`, the count check calls `flushLocked`, handing the bundle
to a dispatch task and emptying the accumulator; the pair variant's `add`
(line 364) instead compares with equality, so its count check does nothing
whenever `len(bundle)` differs from `CountThreshold`, even if it exceeds
it. -/
theorem C8_count_trigger {α : Type} (cfg : Cfg) (st : BState α) (x : α)
    (sz : Int)
    (h : cfg.countThreshold ≤
      (((preFlushAppend cfg st x sz).bundle.length : Int))) :
    countCheckItem cfg (preFlushAppend cfg st x sz) =
      flushLockedS (preFlushAppend cfg st x sz) ∧
    (countCheckItem cfg (preFlushAppend cfg st x sz)).bundle = [] ∧
    (countCheckItem cfg (preFlushAppend cfg st x sz)).sealedB =
      (preFlushAppend cfg st x sz).sealedB ++
        [((preFlushAppend cfg st x sz).bundle,
          (preFlushAppend cfg st x sz).size)] ∧
    ((((preFlushAppend cfg st x sz).bundle.length : Int)) ≠
        cfg.countThreshold →
      countCheckPair cfg (preFlushAppend cfg st x sz) =
        preFlushAppend cfg st x sz) := by
  have hne := preFlushAppend_bundle_ne cfg st x sz
  refine ⟨?_, ?_, ?_, ?_⟩
  · unfold countCheckItem
    rw [if_pos h]
  · unfold countCheckItem
    rw [if_pos h]
    unfold flushLockedS
    rw [if_neg hne]
  · unfold countCheckItem
    rw [if_pos h]
    unfold flushLockedS
    rw [if_neg hne]
  · intro hne2
    unfold countCheckPair
    rw [if_neg hne2]

/-- Witness for C8 (amended) at `CountThreshold = 0` with one admission of
size 1: the Item variant's count check seals the singleton bundle. -/
theorem C8_count_trigger_witness :
    cfgCountZero.countThreshold ≤
      (((preFlushAppend cfgCountZero (bInit Nat cfgCountZero) 0 1).bundle.length :
        Int)) ∧
    (countCheckItem cfgCountZero
      (preFlushAppend cfgCountZero (bInit Nat cfgCountZero) 0 1)).bundle = [] :=
  ⟨by decide,
    (@C8_count_trigger Nat cfgCountZero (bInit Nat cfgCountZero) 0 1
      (by decide)).2.1⟩

/-! ## The Item variant's full observable behaviour (claim C9)

The pure runner `runItem` above covers only the locked accumulator and
admission logic.  The Item variant's observable behaviour additionally
depends on its `ticket *Ticket` field, which `NewBundler` leaves nil
(claim C10): every seal reaches `ti := b.ticket.Next()` (`message.go`
line 101) and every `Flush` reaches `b.ticket.WhatIsNext()` (line 118),
so on the constructed bundler these panic.  And even with the ticketer
initialised, once a bundle has been sealed `Flush` can never return: the
dispatch task's deferred `b.ticket.Release(ti)` (line 105) ends in
`Ticket.Release`'s deferred `t.mutex.Lock()` (claim C5), which blocks
forever holding the ticketer mutex after removing the ticket and
broadcasting — so `WaitAll` either waits for a crossing that the stuck
`Release` holds locked, or blocks on `Lock` itself.  The runner
`runItemT` below tracks both: the ticketer pointer (`none` = nil, `some
n` = a ticketer whose `next` counter is `n`) and these two failure
modes.  Admissions themselves never touch the ticketer mutex
(`Ticket.Next` takes no lock; `Acquire`/`Release` run in dispatch
goroutines), so admission-only runs fail only through the nil pointer.
The timer rendezvous is common to the no-fire schedule of both variants
(with the timer not yet fired the Item variant's unconditional send and
the pair variant's guarded send rendezvous identically), so it does not
appear here. -/

/-- How an Item-variant run can fail: a nil-`*Ticket` dereference panic,
or blocking forever (a `Flush` whose `WaitAll` can never return after
`Ticket.Release` has wedged the ticketer mutex). -/
inductive Abort where
  | nilPanic : Abort
  | stuck : Abort
  deriving Repr, DecidableEq

/-- `flushLocked` of the Item variant (lines 93–109) with its ticket
issuance: empty bundle — return; otherwise snapshot-and-reset and then
`ti := b.ticket.Next()`, which on a nil `*Ticket` panics and otherwise
post-increments the ticketer's `next` counter. -/
def flushLockedI {α : Type} (st : BState α) (tk : Option Nat) :
    Except Abort (BState α × Option Nat) :=
  if st.bundle.length = 0 then Except.ok (st, tk)
  else
    match tk with
    | none => Except.error Abort.nilPanic
    | some n =>
        Except.ok ({ st with bundle := [], size := 0,
                             sealedB := st.sealedB ++ [(st.bundle, st.size)] },
                   some (n + 1))

/-- Step 1 of the Item variant's `add` (lines 129–131): pre-flush when
`BundleSizeLimit > 0 && size+sz > BundleSizeLimit`. -/
def preFlushI {α : Type} (cfg : Cfg) (st : BState α) (tk : Option Nat)
    (sz : Int) : Except Abort (BState α × Option Nat) :=
  if 0 < cfg.bundleSizeLimit ∧ cfg.bundleSizeLimit < st.size + sz then
    flushLockedI st tk
  else Except.ok (st, tk)

/-- Step 2 of the Item variant's `add` (lines 134–135): append the item
and add its size (panic-propagating). -/
def appendI {α : Type} (x : α) (sz : Int) :
    Except Abort (BState α × Option Nat) → Except Abort (BState α × Option Nat)
  | Except.error e => Except.error e
  | Except.ok (st, tk) =>
      Except.ok ({ st with bundle := st.bundle ++ [x],
                           size := st.size + sz }, tk)

/-- The Item variant's count trigger (line 158), `>=`, panic-propagating. -/
def countCheckI {α : Type} (cfg : Cfg) :
    Except Abort (BState α × Option Nat) → Except Abort (BState α × Option Nat)
  | Except.error e => Except.error e
  | Except.ok (st, tk) =>
      if cfg.countThreshold ≤ (st.bundle.length : Int) then flushLockedI st tk
      else Except.ok (st, tk)

/-- The Item variant's size trigger (line 162), panic-propagating. -/
def sizeCheckI {α : Type} (cfg : Cfg) :
    Except Abort (BState α × Option Nat) → Except Abort (BState α × Option Nat)
  | Except.error e => Except.error e
  | Except.ok (st, tk) =>
      if cfg.sizeThreshold ≤ st.size then flushLockedI st tk
      else Except.ok (st, tk)

/-- `add` of the Item variant (lines 124–165) with ticket issuance. -/
def addLockedI {α : Type} (cfg : Cfg) (st : BState α) (tk : Option Nat)
    (x : α) (sz : Int) : Except Abort (BState α × Option Nat) :=
  sizeCheckI cfg (countCheckI cfg (appendI x sz (preFlushI cfg st tk sz)))

/-- `TryAdd` of the Item variant (lines 168–178) with ticket issuance:
the oversize and semaphore checks never touch the ticketer; only a seal
inside `b.add(item)` can reach the nil pointer. -/
def tryAddItemT {α : Type} (cfg : Cfg) (st : BState α) (tk : Option Nat)
    (x : α) (sz : Int) : Except Abort (Res × BState α × Option Nat) :=
  if 0 < cfg.bundleSizeLimit ∧ cfg.bundleSizeLimit < sz then
    Except.ok (Res.oversize, st, tk)
  else if sz ≤ st.avail then
    match addLockedI cfg { st with avail := st.avail - sz } tk x sz with
    | Except.error e => Except.error e
    | Except.ok p => Except.ok (Res.ok, p.1, p.2)
  else Except.ok (Res.overflow, st, tk)

/-- `Flush` of the Item variant (lines 112–122): `flushLocked`, then
`ti := b.ticket.WhatIsNext()` — a nil dereference when the ticket is nil —
then `WaitAll(ti)`.  `WaitAll(0)` returns at once (nothing ever sealed, so
the semaphore was never touched and `avail` is unchanged); with `ti > 0`
some bundle was sealed, and its dispatch task's `Ticket.Release` wedges
the ticketer mutex (claim C5), so `WaitAll` never returns under any
schedule. -/
def flushItemT {α : Type} (st : BState α) (tk : Option Nat) :
    Except Abort (BState α × Option Nat) :=
  match flushLockedI st tk with
  | Except.error e => Except.error e
  | Except.ok p =>
      match p.2 with
      | none => Except.error Abort.nilPanic
      | some n =>
          if n = 0 then Except.ok (p.1, some 0) else Except.error Abort.stuck

/-- Run the Item variant, ticket pointer included, over a list of
operations, collecting the admission results in order. -/
def runItemT {α : Type} (cfg : Cfg) :
    BState α → Option Nat → List (SOp α) →
      Except Abort ((BState α × Option Nat) × List Res)
  | st, tk, [] => Except.ok ((st, tk), [])
  | st, tk, SOp.add x sz :: ops =>
      match tryAddItemT cfg st tk x sz with
      | Except.error e => Except.error e
      | Except.ok p =>
          match runItemT cfg p.2.1 p.2.2 ops with
          | Except.error e => Except.error e
          | Except.ok q => Except.ok (q.1, p.1 :: q.2)
  | st, tk, SOp.flush :: ops =>
      match flushItemT st tk with
      | Except.error e => Except.error e
      | Except.ok p => runItemT cfg p.1 p.2 ops

/-- A configuration whose `CountThreshold` is 1: every admission seals. -/
def cfgCountOne : Cfg :=
  { countThreshold := 1, sizeThreshold := 1000000,
    bundleSizeLimit := 10000000, bufferSizeLimit := 1000000000 }

/-- Counterexample to C9 as stated, traced through the real code paths:
(i) on the bundler `NewBundler` actually constructs (nil ticket), a bare
`Flush()` panics in the Item variant (`WhatIsNext` on nil) while the pair
variant returns, and with `CountThreshold = 1` a single admission panics
inside `TryAdd` (`Next` on nil at the seal) while the pair variant returns
ok and delivers the batch `[0]`; (ii) even with the ticketer initialised,
`Flush` after a seal blocks forever in the Item variant (the C5 `Release`
bug wedges the ticketer mutex) while the pair variant completes; (iii)
with the ticketer initialised and `CountThreshold = 0`, the `>=`-vs-`==`
count triggers make the Item variant seal `[0]` where the pair variant
seals nothing.  So the variants do not return the same results nor
deliver the same batches. -/
theorem C9_counterexample :
    runItemT cfgDefault (bInit Nat cfgDefault) none [SOp.flush] =
      Except.error Abort.nilPanic ∧
    runPair cfgDefault (bInit Nat cfgDefault) [SOp.flush] =
      (({ bundle := [], size := 0, sealedB := [],
          avail := 1000000000 } : BState Nat), []) ∧
    runItemT cfgCountOne (bInit Nat cfgCountOne) none [SOp.add 0 1] =
      Except.error Abort.nilPanic ∧
    (runPair cfgCountOne (bInit Nat cfgCountOne) [SOp.add 0 1]).2 =
      [Res.ok] ∧
    (runPair cfgCountOne (bInit Nat cfgCountOne) [SOp.add 0 1]).1.sealedB =
      [([0], 1)] ∧
    runItemT cfgCountOne (bInit Nat cfgCountOne) (some 0)
        [SOp.add 0 1, SOp.flush] = Except.error Abort.stuck ∧
    (runPair cfgCountOne (bInit Nat cfgCountOne)
        [SOp.add 0 1, SOp.flush]).2 = [Res.ok] ∧
    runItemT cfgCountZero (bInit Nat cfgCountZero) (some 0) [SOp.add 0 1] =
      Except.ok
        ((({ bundle := [], size := 0, sealedB := [([0], 1)],
             avail := 999999999 } : BState Nat), some 1), [Res.ok]) ∧
    (runPair cfgCountZero (bInit Nat cfgCountZero) [SOp.add 0 1]).1.sealedB =
      [] := by
  exact ⟨rfl, rfl, rfl, rfl, rfl, rfl, rfl, rfl, rfl⟩

/-- The count invariant for the equivalence proof: the accumulator length
stays strictly below `CountThreshold`. -/
def cntInv {α : Type} (cfg : Cfg) (st : BState α) : Prop :=
  (st.bundle.length : Int) < cfg.countThreshold

theorem flushLockedS_bundle_eq_nil {α : Type} (st : BState α) :
    (flushLockedS st).bundle = [] := by
  unfold flushLockedS
  split_ifs with h
  · exact List.length_eq_zero.mp h
  · rfl

theorem sizeCheck_bundle_cases {α : Type} (cfg : Cfg) (st : BState α) :
    (sizeCheck cfg st).bundle = [] ∨ sizeCheck cfg st = st := by
  unfold sizeCheck
  split_ifs with h
  · exact Or.inl (flushLockedS_bundle_eq_nil st)
  · exact Or.inr rfl

theorem addLocked_eq_of_cntInv {α : Type} {cfg : Cfg} {st : BState α}
    {x : α} {sz : Int} (h1 : 1 ≤ cfg.countThreshold) (h : cntInv cfg st) :
    addLockedItem cfg st x sz = addLockedPair cfg st x sz ∧
    cntInv cfg (addLockedItem cfg st x sz) := by
  have hlen : (((preFlushAppend cfg st x sz).bundle.length : Int)) ≤
      cfg.countThreshold := by
    unfold preFlushAppend
    split_ifs with hc
    · show ((((flushLockedS st).bundle ++ [x]).length : Int)) ≤
        cfg.countThreshold
      rw [flushLockedS_bundle_eq_nil st]
      simpa using h1
    · show (((st.bundle ++ [x]).length : Int)) ≤ cfg.countThreshold
      unfold cntInv at h
      simp only [List.length_append, List.length_cons, List.length_nil]
      push_cast
      omega
  unfold addLockedItem addLockedPair
  by_cases hc : (((preFlushAppend cfg st x sz).bundle.length : Int)) =
      cfg.countThreshold
  · unfold countCheckItem countCheckPair
    rw [if_pos (le_of_eq hc.symm), if_pos hc]
    refine ⟨rfl, ?_⟩
    unfold cntInv
    rcases sizeCheck_bundle_cases cfg (flushLockedS (preFlushAppend cfg st x sz)) with
      hb | hb
    · rw [hb]; simpa using h1
    · rw [hb, flushLockedS_bundle_eq_nil]; simpa using h1
  · have hlt : (((preFlushAppend cfg st x sz).bundle.length : Int)) <
        cfg.countThreshold := lt_of_le_of_ne hlen hc
    unfold countCheckItem countCheckPair
    rw [if_neg (not_le_of_lt hlt), if_neg hc]
    refine ⟨rfl, ?_⟩
    unfold cntInv
    rcases sizeCheck_bundle_cases cfg (preFlushAppend cfg st x sz) with hb | hb
    · rw [hb]; simpa using h1
    · rw [hb]; exact hlt

theorem flushLockedI_tracked {α : Type} (st : BState α) (n : Nat)
    (hn : n = st.sealedB.length) :
    flushLockedI st (some n) =
      Except.ok (flushLockedS st, some (flushLockedS st).sealedB.length) := by
  subst hn
  unfold flushLockedI flushLockedS
  split_ifs with h
  · rfl
  · simp [List.length_append]

theorem countCheckI_tracked {α : Type} (cfg : Cfg) (st : BState α) (n : Nat)
    (hn : n = st.sealedB.length) :
    countCheckI cfg (Except.ok (st, some n)) =
      Except.ok (countCheckItem cfg st,
        some (countCheckItem cfg st).sealedB.length) := by
  subst hn
  simp only [countCheckI, countCheckItem]
  split_ifs with h
  · exact flushLockedI_tracked st _ rfl
  · rfl

theorem sizeCheckI_tracked {α : Type} (cfg : Cfg) (st : BState α) (n : Nat)
    (hn : n = st.sealedB.length) :
    sizeCheckI cfg (Except.ok (st, some n)) =
      Except.ok (sizeCheck cfg st, some (sizeCheck cfg st).sealedB.length) := by
  subst hn
  simp only [sizeCheckI, sizeCheck]
  split_ifs with h
  · exact flushLockedI_tracked st _ rfl
  · rfl

theorem addLockedI_tracked {α : Type} (cfg : Cfg) (st : BState α) (x : α)
    (sz : Int) (n : Nat) (hn : n = st.sealedB.length) :
    addLockedI cfg st (some n) x sz =
      Except.ok (addLockedItem cfg st x sz,
        some (addLockedItem cfg st x sz).sealedB.length) := by
  subst hn
  unfold addLockedI addLockedItem preFlushI preFlushAppend
  split_ifs with h
  · rw [flushLockedI_tracked st _ rfl]
    simp only [appendI]
    rw [countCheckI_tracked cfg _ _ rfl, sizeCheckI_tracked cfg _ _ rfl]
  · simp only [appendI]
    rw [countCheckI_tracked cfg _ _ rfl, sizeCheckI_tracked cfg _ _ rfl]

/-- The induction behind the amended C9: starting from any accumulator
state whose ticketer `next` counter equals the number of bundles sealed
so far (as after `NewTicketer`), an admission-only operation sequence
drives the Item variant, panic possibilities included, to exactly the
pair variant's results, batches and state. -/
theorem runItemT_eq_runPair {α : Type} {cfg : Cfg}
    (h1 : 1 ≤ cfg.countThreshold) (ops : List (SOp α))
    (hops : ∀ op ∈ ops, op ≠ SOp.flush) :
    ∀ st : BState α, cntInv cfg st →
      runItemT cfg st (some st.sealedB.length) ops =
        Except.ok (((runPair cfg st ops).1,
          some (runPair cfg st ops).1.sealedB.length),
          (runPair cfg st ops).2) := by
  induction ops with
  | nil => intro st _; rfl
  | cons op ops ih =>
      have hops2 : ∀ o ∈ ops, o ≠ SOp.flush :=
        fun o ho => hops o (List.mem_cons_of_mem _ ho)
      intro st h
      cases op with
      | flush => exact absurd rfl (hops SOp.flush (List.mem_cons_self _ _))
      | add x sz =>
          simp only [runItemT, runPair]
          unfold tryAddItemT tryAddPair
          split_ifs with hc1 hc2
          · dsimp only
            rw [ih hops2 st h]
          · have hst2 : cntInv cfg
                ({ st with avail := st.avail - sz } : BState α) := h
            have he := @addLocked_eq_of_cntInv α cfg
              { st with avail := st.avail - sz } x sz h1 hst2
            rw [addLockedI_tracked cfg { st with avail := st.avail - sz }
                  x sz _ rfl]
            dsimp only
            rw [he.1, ih hops2 _ (he.1 ▸ he.2)]
          · dsimp only
            rw [ih hops2 st h]

/-- Claim C9 (amended): as written the two Bundler variants are not
equivalent — on the bundler `NewBundler` constructs, the Item variant
panics on the nil `ticket` at the first flush or seal where the pair
variant proceeds (claim C10); even with the ticketer initialised, its
`Flush` after a seal blocks forever through the `Ticket.Release` bug
(claim C5); and with `CountThreshold ≤ 0` the `>=`-vs-`==` count
triggers diverge (claim C8).  What does hold: restricted to sequences of
non-blocking admissions (no `Flush`), with the Item variant's ticketer
initialised (`NewTicketer`, `next = 0`) and `CountThreshold ≥ 1`, the two
variants are equivalent — the Item variant completes without panic,
returns the same admission results, and seals the same batches in the
same order, its ticket counter equal to the number of sealed bundles. -/
theorem C9_variants_equivalent {α : Type} (cfg : Cfg)
    (h1 : 1 ≤ cfg.countThreshold) (ops : List (SOp α))
    (hops : ∀ op ∈ ops, op ≠ SOp.flush) :
    runItemT cfg (bInit α cfg) (some 0) ops =
      Except.ok (((runPair cfg (bInit α cfg) ops).1,
        some (runPair cfg (bInit α cfg) ops).1.sealedB.length),
        (runPair cfg (bInit α cfg) ops).2) := by
  have h0 : cntInv cfg (bInit α cfg) := by
    unfold cntInv bInit
    simpa using h1
  exact runItemT_eq_runPair h1 ops hops (bInit α cfg) h0

/-- Witness for C9 (amended) under the default configuration on a
two-admission workload. -/
theorem C9_variants_equivalent_witness :
    (1 : Int) ≤ cfgDefault.countThreshold ∧
    (∀ op ∈ ([SOp.add 0 60, SOp.add 1 40] : List (SOp Nat)),
      op ≠ SOp.flush) ∧
    runItemT cfgDefault (bInit Nat cfgDefault) (some 0)
        [SOp.add 0 60, SOp.add 1 40] =
      Except.ok (((runPair cfgDefault (bInit Nat cfgDefault)
          [SOp.add 0 60, SOp.add 1 40]).1,
        some (runPair cfgDefault (bInit Nat cfgDefault)
          [SOp.add 0 60, SOp.add 1 40]).1.sealedB.length),
        (runPair cfgDefault (bInit Nat cfgDefault)
          [SOp.add 0 60, SOp.add 1 40]).2) :=
  ⟨by decide, by decide,
    C9_variants_equivalent cfgDefault (by decide)
      [SOp.add 0 60, SOp.add 1 40] (by decide)⟩

/-! ## `release` and the ticketer mutex (claim C5)

`Bundler.release` (`message.go` lines 421–431) takes `mutex4t` and defers
`Unlock`; `Ticket.Release` (`ticket.go` lines 41–50) takes `t.mutex` and
defers `t.mutex.Lock()` — a second `Lock` on the mutex it already holds.
A Go `sync.Mutex` is not reentrant: locking a held mutex blocks (and in
this call frame nothing will ever unlock it), while a deferred statement
runs both on normal return and while a panic unwinds. -/

/-- Result of one `release` call entered with the mutex free: a normal
return, a propagated panic, or blocking forever inside the call.  Each
carries the mutex state (`true` = still locked), the `active` set after
the mutations the call performed, and the number of `Broadcast`s it
executed. -/
inductive RelOutcome where
  | ret : Bool → List Nat → Nat → RelOutcome
  | panicked : Bool → List Nat → Nat → RelOutcome
  | blockedForever : Bool → List Nat → Nat → RelOutcome
  deriving Repr, DecidableEq

/-- `Lock` on a mutex: succeeds (leaving it held) iff it is free;
locking a mutex this frame already holds blocks forever. -/
def muLock (locked : Bool) : Option Bool :=
  if locked then none else some true

/-- `Unlock` on a mutex leaves it free. -/
def muUnlock (_ : Bool) : Bool := false

/-- `Bundler.release` of the pair variant (`message.go` lines 421–431):
`Lock`, `defer Unlock`, panic if the ticket is not active, else delete it
and `Broadcast`. -/
def releasePair (locked : Bool) (active : List Nat) (t : Nat) : RelOutcome :=
  match muLock locked with
  | none => .blockedForever locked active 0
  | some l1 =>
      if t ∈ active then .ret (muUnlock l1) (active.erase t) 1
      else .panicked (muUnlock l1) active 0

/-- `Ticket.Release` of `ticket.go` (lines 41–50): `Lock`, then
`defer t.mutex.Lock()` — the deferred statement is a second `Lock`, which
runs after the body (or during the panic unwind) and blocks on the mutex
the call still holds. -/
def releaseTicket (locked : Bool) (active : List Nat) (t : Nat) : RelOutcome :=
  match muLock locked with
  | none => .blockedForever locked active 0
  | some l1 =>
      if t ∈ active then
        match muLock l1 with
        | none => .blockedForever l1 (active.erase t) 1
        | some l2 => .ret l2 (active.erase t) 1
      else
        match muLock l1 with
        | none => .blockedForever l1 active 0
        | some l2 => .panicked l2 active 0

/-- General behaviour of the pair variant's `release` and of
`Ticket.Release`: the former returns with the mutex unlocked after
deleting and broadcasting (or panics, still unlocking, on an inactive
ticket); the latter never reaches a normal return on any input. -/
theorem releasePair_and_releaseTicket_behaviour :
    ∀ (active : List Nat) (t : Nat),
      (t ∈ active →
        releasePair false active t =
          RelOutcome.ret false (active.erase t) 1) ∧
      (t ∉ active →
        releasePair false active t = RelOutcome.panicked false active 0) ∧
      ∀ (l : Bool) (a : List Nat) (n : Nat),
        releaseTicket false active t ≠ RelOutcome.ret l a n := by
  intro active t
  refine ⟨?_, ?_, ?_⟩
  · intro h
    simp [releasePair, muLock, muUnlock, h]
  · intro h
    simp [releasePair, muLock, muUnlock, h]
  · intro l a n
    by_cases h : t ∈ active <;> simp [releaseTicket, muLock, h]

/-- Claim C5, demonstrated: the pair variant's `release` removes the
ticket, broadcasts once, panics exactly when the ticket is not active,
and leaves the mutex unlocked on both return paths; but `Ticket.Release`
of `ticket.go` — whose deferred call is `Lock` instead of `Unlock` —
never returns at all: at the failing input (active ticket 0) it performs
the deletion and broadcast and then blocks forever with the mutex still
held, so no subsequent acquire, release or wait-all can take the lock. -/
theorem C5_release_unlocks_mutex :
    releasePair false [0] 0 = RelOutcome.ret false [] 1 ∧
    releasePair false [5] 0 = RelOutcome.panicked false [5] 0 ∧
    releaseTicket false [0] 0 = RelOutcome.blockedForever true [] 1 ∧
    releaseTicket false [5] 0 = RelOutcome.blockedForever true [5] 0 := by
  decide

/-! ## The timer-cancel rendezvous in `flushLocked` (claim C6)

`timerCancel` is an unbuffered channel whose only reader is the timer
goroutine sitting in `select { case <-b.timer.C; case <-b.timerCancel }`.
`timer.Stop()` returns true iff the timer had not yet fired; in that case
the goroutine is still at the select and can receive the cancel.  If the
timer has already fired, the goroutine took the `<-b.timer.C` branch, so
nobody will ever read `timerCancel` and a send on it blocks forever. -/

/-- Timer prefix of the pair variant's `flushLocked` (`message.go` lines
376–385): `if b.timer.Stop() { b.timerCancel <- struct{}{} }` — the send
happens only when `Stop()` reports the timer had not yet fired.  Returns
the new `timerRunning` flag and the number of sends on `timerCancel`, or
`none` if the call blocks forever. -/
def flushTimerPair (timerRunning notYetFired : Bool) : Option (Bool × Nat) :=
  if timerRunning then
    if notYetFired then some (false, 1) else some (false, 0)
  else some (timerRunning, 0)

/-- Timer prefix of the Item variant's `flushLocked` (`message.go` lines
84–92): `b.timer.Stop()` with its result discarded, then an unconditional
`b.timerCancel <- struct{}{}` — when the timer has already fired there is
no reader and the send blocks forever (`none`). -/
def flushTimerItem (timerRunning notYetFired : Bool) : Option (Bool × Nat) :=
  if timerRunning then
    if notYetFired then some (false, 1) else none
  else some (timerRunning, 0)

/-- Claim C6, settled against both variants by exhausting the two boolean
inputs: in the pair variant the cancel message is sent iff `Stop()`
reported the timer had not yet fired (one send per armed timer, none once
it fired, none when no timer is armed); in the Item variant the send is
unconditional, so at the failing input — timer armed but already fired —
the code attempts a send with no reader and `flushLocked` blocks forever
instead of sending nothing. -/
theorem C6_timer_cancel_iff_not_fired :
    flushTimerPair true true = some (false, 1) ∧
    flushTimerPair true false = some (false, 0) ∧
    flushTimerPair false true = some (false, 0) ∧
    flushTimerPair false false = some (false, 0) ∧
    flushTimerItem true true = some (false, 1) ∧
    flushTimerItem true false = none := by
  decide

/-! ## Slice reuse across seals in the Item variant (claim C4)

`flushLocked` of the Item variant (lines 96–98) hands `b.items` to the
dispatch task and resets the accumulator with `b.items = b.itemsZero` —
the one slice allocated by `NewBundler` with
`make([]Item, 0, (DefaultCountTreshold+1)>>1)`, i.e. length 0, capacity 5,
reused after every seal.  A Go `append` within capacity writes into the
backing array; after a seal of at most 5 items the sealed snapshot and the
reset accumulator share `itemsZero`'s backing array, so the next `add`
overwrites the sealed bundle's elements before (or while) its handler
runs.  The pair variant's `bundleZero` is `make([]interface{}, 0)` —
capacity 0 — so every append after a seal allocates afresh. -/

/-- A Go slice header: backing-array id, length, capacity.  All slices in
these runs start at offset 0 of their array, as `itemsZero`/`bundleZero`
and everything appended from them do. -/
structure GoSlice where
  arr : Nat
  len : Nat
  cap : Nat
  deriving Repr, DecidableEq

/-- The heap of backing arrays, indexed by array id. -/
structure Heap where
  arrs : List (List Nat)
  deriving Repr, DecidableEq

/-- The backing array of id `i`. -/
def heapArr (h : Heap) (i : Nat) : List Nat := h.arrs.getD i []

/-- The elements a slice header denotes. -/
def sliceView (h : Heap) (s : GoSlice) : List Nat := (heapArr h s.arr).take s.len

/-- Go `append` of one element: when spare capacity remains, write in
place into the backing array; otherwise allocate a fresh larger array and
copy (the exact growth factor is immaterial here). -/
def goAppend (h : Heap) (s : GoSlice) (x : Nat) : Heap × GoSlice :=
  if s.len < s.cap then
    ({ arrs := h.arrs.set s.arr ((heapArr h s.arr).set s.len x) },
     { s with len := s.len + 1 })
  else
    let newcap := if s.cap = 0 then 1 else 2 * s.cap
    ({ arrs := h.arrs ++
        [sliceView h s ++ [x] ++ List.replicate (newcap - (s.len + 1)) 0] },
     { arr := h.arrs.length, len := s.len + 1, cap := newcap })

/-- Heap-level accumulator state: the heap, the current `items`/`bundle`
slice, the preallocated zero slice, and the slice headers handed to
dispatch tasks, in seal order. -/
structure HState where
  heap : Heap
  items : GoSlice
  itemsZero : GoSlice
  sealedSlices : List GoSlice
  deriving Repr, DecidableEq

/-- `NewBundler` of the Item variant (lines 197–214):
`itemsZero = make([]Item, 0, (10+1)>>1)` — one array of capacity 5 — and
`b.items = b.itemsZero`. -/
def hInitItem : HState :=
  { heap := { arrs := [List.replicate 5 0] },
    items := { arr := 0, len := 0, cap := 5 },
    itemsZero := { arr := 0, len := 0, cap := 5 },
    sealedSlices := [] }

/-- `NewBundler` of the pair variant (lines 454–474):
`bundleZero = make([]interface{}, 0)` — capacity 0 — and
`b.bundle = b.bundleZero`. -/
def hInitPair : HState :=
  { heap := { arrs := [[]] },
    items := { arr := 0, len := 0, cap := 0 },
    itemsZero := { arr := 0, len := 0, cap := 0 },
    sealedSlices := [] }

/-- The snapshot-and-reset of `flushLocked` (lines 96–100 / 389–393) at
heap level: hand the current slice header to a dispatch task and reset
the accumulator to the preallocated zero slice. -/
def hFlush (st : HState) : HState :=
  if st.items.len = 0 then st
  else { st with sealedSlices := st.sealedSlices ++ [st.items],
                 items := st.itemsZero }

/-- The append of `add` (line 134 / 341) at heap level.  (On the runs
below, with default thresholds, none of the flush triggers of `add`
fires, so the append is the whole effect.) -/
def hAdd (st : HState) (x : Nat) : HState :=
  let p := goAppend st.heap st.items x
  { st with heap := p.1, items := p.2 }

/-- Claim C4, refuted on the Item variant and verified on the pair
variant at the same workload: add item 1, seal, add item 2.  In the Item
variant the sealed snapshot reads `[1]` at seal time but `[2]` after the
next add — the reset accumulator is `itemsZero` itself, sharing the
sealed bundle's backing array, so the dispatch task does not exclusively
own the sealed sequence.  In the pair variant (capacity-0 zero slice) the
sealed snapshot still reads `[1]` after the next add. -/
theorem C4_sealed_bundle_aliasing :
    (hFlush (hAdd hInitItem 1)).sealedSlices = [⟨0, 1, 5⟩] ∧
    sliceView (hFlush (hAdd hInitItem 1)).heap ⟨0, 1, 5⟩ = [1] ∧
    (hAdd (hFlush (hAdd hInitItem 1)) 2).items = ⟨0, 1, 5⟩ ∧
    sliceView (hAdd (hFlush (hAdd hInitItem 1)) 2).heap ⟨0, 1, 5⟩ = [2] ∧
    (hFlush (hAdd hInitPair 1)).sealedSlices = [⟨1, 1, 1⟩] ∧
    sliceView (hFlush (hAdd hInitPair 1)).heap ⟨1, 1, 1⟩ = [1] ∧
    sliceView (hAdd (hFlush (hAdd hInitPair 1)) 2).heap ⟨1, 1, 1⟩ = [1] := by
  decide

/-! ## The Item variant's constructor and the `ticket` field (claim C10) -/

/-- Go panic values reachable in this model. -/
inductive GoPanic where
  | nilPointerDereference : GoPanic
  deriving Repr, DecidableEq

/-- The Item-variant `Bundler` fields `Flush` depends on: the
configuration, the `HandlerLimit`, the `ticket *Ticket` pointer (`none` =
nil), and the accumulated items. -/
structure IBundler where
  cfg : Cfg
  handlerLimit : Int
  ticket : Option TState
  items : List Nat
  deriving Repr, DecidableEq

/-- `NewBundler(handle)` of the Item variant (lines 197–215): the
composite literal sets the thresholds, `HandlerLimit: 1`, `handle`,
`itemsZero`, the timer fields, `mutex`, `sem` and `semInitOnce` — but has
no `ticket:` entry, so that pointer field keeps Go's zero value, nil. -/
def newBundlerItem : IBundler :=
  { cfg := cfgDefault, handlerLimit := 1, ticket := none, items := [] }

/-- `Flush` of the Item variant (lines 112–122).  With an empty bundle,
`flushLocked` returns without touching `b.ticket`, and `Flush` then calls
`b.ticket.WhatIsNext()`; with a non-empty bundle, `flushLocked` itself
reaches `ti := b.ticket.Next()`.  Either method on a nil `*Ticket`
dereferences the receiver and panics.  On a non-nil ticketer the call
seals (issuing the next ticket) and returns the watermark. -/
def flushItemVariant (b : IBundler) : Except GoPanic (IBundler × Nat) :=
  if b.items.length = 0 then
    match b.ticket with
    | none => Except.error GoPanic.nilPointerDereference
    | some t => Except.ok (b, t.next)
  else
    match b.ticket with
    | none => Except.error GoPanic.nilPointerDereference
    | some t =>
        Except.ok ({ b with items := [],
                            ticket := some { t with next := t.next + 1 } },
                   t.next + 1)

/-- Claim C10, refuted: `NewBundler` of the Item variant never
initializes the `ticket` field, so it is nil, and `Flush()` on a freshly
constructed bundler — with or without a pending item — dereferences the
nil pointer and panics instead of completing. -/
theorem C10_flush_nil_ticket :
    newBundlerItem.ticket = none ∧
    flushItemVariant newBundlerItem =
      Except.error GoPanic.nilPointerDereference ∧
    flushItemVariant { newBundlerItem with items := [7] } =
      Except.error GoPanic.nilPointerDereference ∧
    flushItemVariant { newBundlerItem with ticket := some (tInit 1) } =
      Except.ok ({ newBundlerItem with ticket := some (tInit 1) }, 0) := by
  refine ⟨rfl, rfl, rfl, rfl⟩

end Shipper
